import Mathlib

/-!
Verification development for the pqa-web repository.

The repository is a small HTTP backend answering questions over local PDF
documents.  Two request-handling variants exist in the source:

* `src/api/app.py` — an agent-routed variant: a LangGraph agent with a single
  tool `paperqa_query` that lazily indexes the PDFs, queries them, cleans the
  answer and applies a no-answer fallback; the handler `chat_with_papers`
  validates the request, runs the agent, logs and returns the final message.
* `src/backend/app.py` — a direct variant: `chat_with_papers` validates,
  indexes and queries directly (with a TypeError parameter fallback), cleans
  the answer and applies a no-answer fallback.

This file gives a shallow embedding of those functions over `List Char` /
`String`, with external collaborators (the paperqa library, the LLM, the
filesystem clock) modelled as explicit parameters, and proves or refutes the
frozen claims about them.
-/

set_option maxRecDepth 10000

/-! ### Character classes

Python's `re` module class `\s` and `str.strip()` whitespace, restricted to
the ASCII whitespace characters (the only ones the program's strings use). -/

def isPySpace (c : Char) : Bool :=
  c = ' ' || c = '\t' || c = '\n' || c = '\r' || c = '\x0b' || c = '\x0c'

/-- Boolean test that `c` is not a newline; the regex `.` in non-DOTALL mode
matches exactly these characters. -/
def notNl (c : Char) : Bool := c != '\n'

/-- Boolean prefix test on character lists (pattern first). -/
def startsWithL : List Char → List Char → Bool
  | [], _ => true
  | _ :: _, [] => false
  | p :: ps, c :: cs => p == c && startsWithL ps cs

/-- Boolean contiguous-occurrence test: `pat` occurs as a contiguous segment
of `l`. -/
def containsSeg (pat : List Char) : List Char → Bool
  | [] => startsWithL pat []
  | c :: rest => startsWithL pat (c :: rest) || containsSeg pat rest

/-! ### The answer sanitizer `clean_answer_text`

Source (identical in `src/api/app.py` lines 58-66 and `src/backend/app.py`
lines 27-38):

    if not text: return ""
    text = re.sub(r'^Question:.*\n', '', text, flags=re.MULTILINE)
    text = re.sub(r'\n\nReferences.*$', '', text, flags=re.DOTALL)
    text = re.sub(r'\n\s*\n', '\n\n', text)
    return text.strip()

The first substitution removes every newline-terminated line whose text
starts with the literal `Question:`.  The second truncates the text at the
first occurrence of the literal `\n\nReferences`.  The third replaces each
leftmost-greedy match of `\n\s*\n` — i.e. in each maximal whitespace run
containing at least two newlines, the span from its first to its last
newline — by exactly two newlines.  Finally `str.strip()` trims whitespace
at both ends. -/

def qpat : List Char := "Question:".data

def refsPat : List Char := '\n' :: '\n' :: "References".data

/-- Split on `'\n'`, keeping every (possibly empty) piece; a list with `n`
newlines yields `n + 1` pieces. -/
def splitNl : List Char → List (List Char)
  | [] => [[]]
  | c :: rest =>
    if c = '\n' then [] :: splitNl rest
    else
      match splitNl rest with
      | [] => [[c]]
      | p :: ps => (c :: p) :: ps

/-- Inverse of `splitNl`: interleave the pieces with `'\n'`. -/
def joinNl : List (List Char) → List Char
  | [] => []
  | [l] => l
  | l :: ls => l ++ '\n' :: joinNl ls

/-- Drop every piece that starts with `Question:`, except the final piece
(the final piece of `splitNl` is the part after the last newline, which the
regex `^Question:.*\n` cannot match for want of a terminating newline). -/
def dropQLines : List (List Char) → List (List Char)
  | [] => []
  | [l] => [l]
  | l :: ls => if startsWithL qpat l then dropQLines ls else l :: dropQLines ls

/-- Model of `re.sub(r'^Question:.*\n', '', text, flags=re.MULTILINE)`. -/
def removeQ (l : List Char) : List Char :=
  joinNl (dropQLines (splitNl l))

/-- Model of `re.sub(r'\n\nReferences.*$', '', text, flags=re.DOTALL)`:
truncate at the first occurrence of `refsPat`. -/
def truncAtRefs : List Char → List Char
  | [] => []
  | c :: rest =>
    if startsWithL refsPat (c :: rest) then [] else c :: truncAtRefs rest

/-- Transform of one maximal whitespace run under one pass of
`re.sub(r'\n\s*\n', '\n\n', text)`: if the run holds at least two newlines,
the span from its first to its last newline collapses to exactly two. -/
def collapseBlock (w : List Char) : List Char :=
  if 2 ≤ w.count '\n' then
    w.takeWhile notNl ++ '\n' :: '\n' :: (w.reverse.takeWhile notNl).reverse
  else w

/-- Worker for `collapse`: `buf` accumulates the current whitespace run in
reverse order. -/
def collapseAux : List Char → List Char → List Char
  | buf, [] => collapseBlock buf.reverse
  | buf, c :: rest =>
    if isPySpace c then collapseAux (c :: buf) rest
    else collapseBlock buf.reverse ++ c :: collapseAux [] rest

/-- Model of `re.sub(r'\n\s*\n', '\n\n', text)`. -/
def collapse (l : List Char) : List Char := collapseAux [] l

/-- Leading-whitespace trim, half of `str.strip()`. -/
def wsDropLead (l : List Char) : List Char := l.dropWhile isPySpace

/-- Trailing-whitespace trim, the other half of `str.strip()`. -/
def wsDropTrail (l : List Char) : List Char :=
  (l.reverse.dropWhile isPySpace).reverse

/-- Model of `str.strip()`. -/
def stripL (l : List Char) : List Char := wsDropTrail (wsDropLead l)

/-- Model of `clean_answer_text` on character lists. -/
def cleanL (l : List Char) : List Char :=
  if l = [] then [] else stripL (collapse (truncAtRefs (removeQ l)))

/-- Model of `clean_answer_text` (`src/api/app.py` lines 58-66,
`src/backend/app.py` lines 27-38). -/
def clean_answer_text (s : String) : String := ⟨cleanL s.data⟩

/-- Model of Python `str.lower()` on the ASCII strings the program compares
against. -/
def pyLower (s : String) : String := ⟨s.data.map Char.toLower⟩

/-! ### The no-answer fallback policies

`src/api/app.py` lines 121-127 (inside the `paperqa_query` tool):

    cleaned_answer = clean_answer_text(final_answer_text)
    if not cleaned_answer or cleaned_answer.lower() in ["none", "", "i cannot answer."]:
        return "I could not find a relevant answer in the documents for your query."
    return cleaned_answer

`src/backend/app.py` lines 118-123 (inside the handler):

    cleaned_answer = clean_answer_text(final_answer_text)
    if not cleaned_answer or cleaned_answer.lower() in ["none", ""]:
        cleaned_answer = "I could not find an answer in the provided documents."
    return {"answer": cleaned_answer}
-/

def paperqaToolFallback : String :=
  "I could not find a relevant answer in the documents for your query."

def backendFallback : String :=
  "I could not find an answer in the provided documents."

/-- Post-processing of the raw paperqa answer inside the `paperqa_query`
tool (`src/api/app.py` lines 121-127). -/
def paperqaAnswerPolicy (raw : String) : String :=
  let cleaned := clean_answer_text raw
  if cleaned = "" ∨ pyLower cleaned ∈ ["none", "", "i cannot answer."] then
    paperqaToolFallback
  else cleaned

/-- Post-processing of the raw paperqa answer in the backend handler
(`src/backend/app.py` lines 118-123). -/
def backendAnswerPolicy (raw : String) : String :=
  let cleaned := clean_answer_text raw
  if cleaned = "" ∨ pyLower cleaned ∈ ["none", ""] then
    backendFallback
  else cleaned

/-! ### Filesystem, external library and index cache -/

/-- State of the configured papers directory: absent, or present with a list
of directory entries. -/
inductive DirState where
  | missing : DirState
  | present (files : List String) : DirState

/-- Result of a Python call: a value, or a raised exception (the flag records
whether the exception is a `TypeError`, the only class the backend variant
distinguishes). -/
inductive PyRes (α : Type) where
  | ok (val : α) : PyRes α
  | exc (typeError : Bool) : PyRes α
deriving DecidableEq

/-- Outcome of the external `aquery` call, abstracted: the text of the answer
it produces, or an exception carrying a message. -/
inductive QueryEv where
  | answers (raw : String) : QueryEv
  | raises (msg : String) : QueryEv

/-- Filename filter `f.endswith('.pdf')` (`src/api/app.py` line 83,
`src/backend/app.py` line 60). -/
def endsPdf (f : String) : Bool := startsWithL ".pdf".data.reverse f.data.reverse

/-- Model of `getattr(docs_instance, '_indexed_files', set())`
(`src/api/app.py` line 89): the file set the cached handle was built from,
defaulting to the empty set. -/
def indexedFiles (st : Option (Finset String)) : Finset String := st.getD ∅

/-- Rebuild condition of the index cache (`src/api/app.py` line 89):
`docs_instance is None or getattr(docs_instance, '_indexed_files', set()) != current_files`. -/
def needsRebuild (st : Option (Finset String)) (current : Finset String) : Bool :=
  st.isNone || decide (indexedFiles st ≠ current)

/-- Observable outcome of one `paperqa_query` tool body run: the value
returned or exception raised, whether the cache was (re)built, how many
`aadd` and `aquery` calls reached the external library, and the cache state
afterwards. -/
structure ToolBodyResult where
  outcome : PyRes String
  rebuilt : Bool
  addCalls : Nat
  queryCalls : Nat
  newState : Option (Finset String)
deriving DecidableEq

/-- Observable outcome of a whole `paperqa_query` tool run (after its
`except Exception` handler). -/
structure ToolRunResult where
  result : String
  rebuilt : Bool
  addCalls : Nat
  queryCalls : Nat
  newState : Option (Finset String)
deriving DecidableEq

def dirMissingMsg : String :=
  "Error: Could not find the \x27my_papers\x27 directory."

def noPdfMsg : String :=
  "Error: Could not find any PDF files in the \x27my_papers\x27 directory."

def toolErrorMsg : String := "An error occurred while searching the documents."

/-- Body of the `paperqa_query` tool (`src/api/app.py` lines 78-127), i.e.
the code inside its `try`.  `st` is the module-global `docs_instance` cache
(`none` when uninitialised, otherwise its `_indexed_files` set);
`addRaises` says whether an `aadd` call on the external library raises;
`qev` is the behaviour of the external `aquery` call.  On an `aadd`
exception the global cache is untouched, because the source indexes into a
local `temp_docs` and only assigns `docs_instance` after the loop. -/
def paperqaBody (dir : DirState) (st : Option (Finset String))
    (addRaises : Bool) (qev : QueryEv) : ToolBodyResult :=
  match dir with
  | .missing => ⟨.ok dirMissingMsg, false, 0, 0, st⟩
  | .present files =>
    let pdfs := files.filter endsPdf
    if pdfs.isEmpty then ⟨.ok noPdfMsg, false, 0, 0, st⟩
    else
      let current := pdfs.toFinset
      if needsRebuild st current then
        if addRaises then ⟨.exc false, true, 1, 0, st⟩
        else
          match qev with
          | .raises _ => ⟨.exc false, true, pdfs.length, 1, some current⟩
          | .answers raw => ⟨.ok (paperqaAnswerPolicy raw), true, pdfs.length, 1, some current⟩
      else
        match qev with
        | .raises _ => ⟨.exc false, false, 0, 1, st⟩
        | .answers raw => ⟨.ok (paperqaAnswerPolicy raw), false, 0, 1, st⟩

/-- The `paperqa_query` tool (`src/api/app.py` lines 68-133): the body above
wrapped in `try ... except Exception: return "An error occurred while
searching the documents."`. -/
def paperqa_query (dir : DirState) (st : Option (Finset String))
    (addRaises : Bool) (qev : QueryEv) : ToolRunResult :=
  let b := paperqaBody dir st addRaises qev
  match b.outcome with
  | .ok s => ⟨s, b.rebuilt, b.addCalls, b.queryCalls, b.newState⟩
  | .exc _ => ⟨toolErrorMsg, b.rebuilt, b.addCalls, b.queryCalls, b.newState⟩

/-! ### The two HTTP handlers -/

/-- Result of the agent-variant HTTP handler: a success payload (answer text
and source tag) or an HTTP error with status and detail. -/
inductive ApiResult where
  | ok (answer : String) (source : String) : ApiResult
  | httpError (status : Nat) (detail : String) : ApiResult
deriving DecidableEq

/-- Result of the backend-variant HTTP handler. -/
inductive BackendResult where
  | ok (answer : String) : BackendResult
  | httpError (status : Nat) (detail : String) : BackendResult
deriving DecidableEq

/-- Behaviour of the LangGraph agent run in the agent variant: it terminates
with a final assistant message (and a flag telling whether any ToolMessage
appeared in the final state), or raises. -/
inductive AgentRun where
  | ok (finalAnswer : String) (usedTool : Bool) : AgentRun
  | raises : AgentRun

def apiKeyMissingMsg : String := "API key is not configured on the server."

def emptyQuestionMsg : String := "Question cannot be empty."

def apiInternalErrorMsg : String := "An internal error occurred."

namespace Api

/-- The agent-variant handler `chat_with_papers` (`src/api/app.py` lines
192-245).  `key` models `app_settings.gemini_api_key` (Python-falsy when
`None` or empty); `run` is the behaviour of `app_graph.ainvoke`.  The final
answer is returned unchanged; the source tag is `rag_api` exactly when a
ToolMessage occurred. -/
def chat_with_papers (key : Option String) (question : String)
    (run : AgentRun) : ApiResult :=
  if key.getD "" = "" then .httpError 500 apiKeyMissingMsg
  else if question = "" then .httpError 400 emptyQuestionMsg
  else
    match run with
    | .raises => .httpError 500 apiInternalErrorMsg
    | .ok ans usedTool => .ok ans (if usedTool then "rag_api" else "conversational_api")

end Api

def backendDirMissingMsg : String :=
  "I could not find the my_papers directory. Please create backend/my_papers and add your documents."

def backendNoPdfMsg : String :=
  "I could not find any PDF files in the my_papers directory. Please add your documents to backend/my_papers."

def backendErrorPrefix : String := "An error occurred while processing your question: "

namespace Backend

/-- The backend-variant handler `chat_with_papers` (`src/backend/app.py`
lines 40-129).  `qev` is the behaviour of the external indexing/query work
inside the `try` (its raw answer text, or an exception whose text the
handler leaks into the 500 detail). -/
def chat_with_papers (key : Option String) (question : String)
    (dir : DirState) (qev : QueryEv) : BackendResult :=
  if key.getD "" = "" then .httpError 500 apiKeyMissingMsg
  else if question = "" then .httpError 400 emptyQuestionMsg
  else
    match dir with
    | .missing => .ok backendDirMissingMsg
    | .present files =>
      let pdfs := files.filter endsPdf
      if pdfs.isEmpty then .ok backendNoPdfMsg
      else
        match qev with
        | .raises msg => .httpError 500 (backendErrorPrefix ++ msg)
        | .answers raw => .ok (backendAnswerPolicy raw)

end Backend

/-! ### The TypeError parameter fallback (backend) and its absence (api)

`src/backend/app.py` lines 91-96 and 102-106 call `aadd`/`aquery` with the
`settings` keyword and, on `TypeError`, retry the same call without it.
`src/api/app.py` lines 106 and 119 pass `settings` unconditionally with no
retry. -/

/-- External `aadd` call: raises `TypeError` exactly when it is passed the
`settings` parameter and the installed library rejects it. -/
def aadd (supportsSettings : Bool) (withSettings : Bool) : PyRes Unit :=
  if withSettings && !supportsSettings then .exc true else .ok ()

/-- External `aquery` call, same parameter behaviour, producing `answer`. -/
def aquery (supportsSettings : Bool) (withSettings : Bool) (answer : String) :
    PyRes String :=
  if withSettings && !supportsSettings then .exc true else .ok answer

namespace Backend

/-- One document addition in the backend variant (`src/backend/app.py`
lines 91-96): try with settings, catch `TypeError`, retry without.  Returns
the outcome and the number of attempts made. -/
def addDocument (supportsSettings : Bool) : PyRes Unit × Nat :=
  match aadd supportsSettings true with
  | .ok u => (.ok u, 1)
  | .exc true => (aadd supportsSettings false, 2)
  | .exc false => (.exc false, 1)

/-- The query in the backend variant (`src/backend/app.py` lines 102-106):
try with settings, catch `TypeError`, retry without. -/
def queryDocs (supportsSettings : Bool) (answer : String) : PyRes String × Nat :=
  match aquery supportsSettings true answer with
  | .ok s => (.ok s, 1)
  | .exc true => (aquery supportsSettings false answer, 2)
  | .exc false => (.exc false, 1)

end Backend

namespace Api

/-- One document addition in the agent variant (`src/api/app.py` line 106):
a single call passing `settings`, no retry. -/
def addDocument (supportsSettings : Bool) : PyRes Unit × Nat :=
  (aadd supportsSettings true, 1)

/-- The query in the agent variant (`src/api/app.py` line 119): a single
call passing `settings`, no retry. -/
def queryDocs (supportsSettings : Bool) (answer : String) : PyRes String × Nat :=
  (aquery supportsSettings true answer, 1)

end Api

/-! ### The response logger

`src/api/app.py` lines 29-42 run at module import:

    now = datetime.now(ZoneInfo('Asia/Tokyo'))
    log_dir = os.path.join(..., 'logs', now.strftime('%Y'), now.strftime('%m'))
    os.makedirs(log_dir, exist_ok=True)
    log_file_path = os.path.join(log_dir, now.strftime('%d') + '.jsonl')
    ... rag_logger.addHandler(logging.FileHandler(log_file_path))

and `src/api/app.py` line 237 appends one record per request through that
handler.  A partition `(y, m, d)` stands for the file
`logs/<y>/<m>/<d>.jsonl`. -/

structure LogDate where
  year : Nat
  month : Nat
  day : Nat
deriving DecidableEq

/-- The date-partition file a date maps to (the `%Y/%m/%d.jsonl` path). -/
def logPartition (d : LogDate) : Nat × Nat × Nat := (d.year, d.month, d.day)

/-- The `rag_logger` after module import: its single `FileHandler` holds the
path computed from the import-time date. -/
structure RagLogger where
  logFile : Nat × Nat × Nat
deriving DecidableEq

/-- Logging setup at module import (`src/api/app.py` lines 29-42). -/
def ragLoggerSetup (importDate : LogDate) : RagLogger := ⟨logPartition importDate⟩

/-- One `rag_logger.info(...)` append (`src/api/app.py` line 237): the write
goes to the handler's file; the date at write time plays no part. -/
def ragLoggerAppend (lg : RagLogger) (_nowDate : LogDate) (line : String) :
    (Nat × Nat × Nat) × String :=
  (lg.logFile, line)

/-! ### List lemmas for the sanitizer -/

/-- Predicate that every character of a list is Python whitespace. -/
def allWs (l : List Char) : Prop := ∀ c ∈ l, isPySpace c = true

lemma startsWithL_weaken {p : List Char} :
    ∀ {a : List Char} (b : List Char), startsWithL p a = true →
      startsWithL p (a ++ b) = true := by
  induction p with
  | nil => intro a b _; rfl
  | cons q ps ih =>
    intro a b h
    cases a with
    | nil => simp [startsWithL] at h
    | cons c cs =>
      rw [List.cons_append]
      rw [startsWithL] at h ⊢
      rcases Bool.and_eq_true_iff.mp h with ⟨h1, h2⟩
      exact Bool.and_eq_true_iff.mpr ⟨h1, ih b h2⟩

lemma dropWhileHeadFalse {p : Char → Bool} :
    ∀ {l : List Char} {c : Char} {r : List Char},
      l.dropWhile p = c :: r → p c = false := by
  intro l
  induction l with
  | nil => intro c r h; simp [List.dropWhile] at h
  | cons x xs ih =>
    intro c r h
    rw [List.dropWhile_cons] at h
    by_cases hx : p x = true
    · rw [if_pos hx] at h; exact ih h
    · rw [if_neg hx] at h
      cases h
      exact Bool.not_eq_true _ ▸ Bool.of_not_eq_true hx

lemma mem_of_mem_takeWhile {p : Char → Bool} :
    ∀ {l : List Char} {c : Char}, c ∈ l.takeWhile p → c ∈ l := by
  intro l
  induction l with
  | nil => intro c h; simp [List.takeWhile_nil] at h
  | cons x xs ih =>
    intro c h
    rw [List.takeWhile_cons] at h
    by_cases hx : p x = true
    · rw [if_pos hx] at h
      rcases List.mem_cons.mp h with h1 | h2
      · exact h1 ▸ List.mem_cons_self _ _
      · exact List.mem_cons_of_mem _ (ih h2)
    · rw [if_neg hx] at h; cases h

lemma takeWhile_allWs (l : List Char) : allWs (l.takeWhile isPySpace) :=
  fun _ hc => List.mem_takeWhile_imp hc

lemma dropWhile_nil_of_all {p : Char → Bool} {l : List Char}
    (h : ∀ c ∈ l, p c = true) : l.dropWhile p = [] :=
  List.dropWhile_eq_nil_iff.mpr h

lemma dropWhile_append_of_all {p : Char → Bool} :
    ∀ {a : List Char} (b : List Char), (∀ c ∈ a, p c = true) →
      (a ++ b).dropWhile p = b.dropWhile p := by
  intro a
  induction a with
  | nil => intro b _; rfl
  | cons x xs ih =>
    intro b h
    rw [List.cons_append, List.dropWhile_cons, if_pos (h x (List.mem_cons_self _ _))]
    exact ih b fun c hc => h c (List.mem_cons_of_mem _ hc)

lemma takeWhile_append_stop {p : Char → Bool} {c0 : Char} :
    ∀ {a : List Char} (b : List Char), (∀ c ∈ a, p c = true) → p c0 = false →
      (a ++ c0 :: b).takeWhile p = a := by
  intro a
  induction a with
  | nil => intro b _ h0; rw [List.nil_append, List.takeWhile_cons, if_neg (by simp [h0])]
  | cons x xs ih =>
    intro b h h0
    rw [List.cons_append, List.takeWhile_cons, if_pos (h x (List.mem_cons_self _ _))]
    rw [ih b (fun c hc => h c (List.mem_cons_of_mem _ hc)) h0]

lemma dropWhile_append_stop {p : Char → Bool} {c0 : Char} :
    ∀ {a : List Char} (b : List Char), p c0 = false →
      (a ++ c0 :: b).dropWhile p = a.dropWhile p ++ c0 :: b := by
  intro a
  induction a with
  | nil =>
    intro b h0
    rw [List.nil_append, List.dropWhile_nil, List.nil_append, List.dropWhile_cons,
      if_neg (by simp [h0])]
  | cons x xs ih =>
    intro b h0
    rw [List.cons_append, List.dropWhile_cons, List.dropWhile_cons]
    by_cases hx : p x = true
    · rw [if_pos hx, if_pos hx, ih b h0]
    · rw [if_neg hx, if_neg hx, List.cons_append]

lemma dropWhile_idem {p : Char → Bool} (l : List Char) :
    (l.dropWhile p).dropWhile p = l.dropWhile p := by
  cases h : l.dropWhile p with
  | nil => rfl
  | cons c r =>
    rw [List.dropWhile_cons, if_neg (by simp [dropWhileHeadFalse h])]

/-! ### Properties of the blank-line collapse -/

lemma collapseAux_ws_shift :
    ∀ {w : List Char} (buf l : List Char), allWs w →
      collapseAux buf (w ++ l) = collapseAux (w.reverse ++ buf) l := by
  intro w
  induction w with
  | nil => intro buf l _; rfl
  | cons c w' ih =>
    intro buf l h
    rw [List.cons_append, collapseAux, if_pos (h c (List.mem_cons_self _ _))]
    rw [ih (c :: buf) l (fun x hx => h x (List.mem_cons_of_mem _ hx))]
    rw [List.reverse_cons, List.append_assoc, List.singleton_append]

lemma collapseBlock_nil : collapseBlock [] = [] := rfl

lemma collapse_nil : collapse [] = [] := rfl

lemma collapse_all_ws {l : List Char} (h : allWs l) : collapse l = collapseBlock l := by
  have h1 : collapse (l ++ []) = collapseAux (l.reverse ++ []) [] :=
    collapseAux_ws_shift [] [] h
  rw [List.append_nil, List.append_nil] at h1
  rw [h1, collapseAux, List.reverse_reverse]

lemma collapse_decomp {w : List Char} {c : Char} (u : List Char)
    (hw : allWs w) (hc : isPySpace c = false) :
    collapse (w ++ c :: u) = collapseBlock w ++ c :: collapse u := by
  have h1 : collapse (w ++ c :: u) = collapseAux (w.reverse ++ []) (c :: u) :=
    collapseAux_ws_shift [] (c :: u) hw
  rw [List.append_nil] at h1
  rw [h1, collapseAux, if_neg (by simp [hc]), List.reverse_reverse]
  rfl

lemma collapseBlock_allWs {w : List Char} (h : allWs w) : allWs (collapseBlock w) := by
  rw [collapseBlock]
  by_cases h2 : 2 ≤ w.count '\n'
  · rw [if_pos h2]
    intro c hc
    rcases List.mem_append.mp hc with h3 | h3
    · exact h c (mem_of_mem_takeWhile h3)
    · rcases List.mem_cons.mp h3 with h4 | h4
      · rw [h4]; rfl
      · rcases List.mem_cons.mp h4 with h5 | h5
        · rw [h5]; rfl
        · exact h c (List.mem_reverse.mp (mem_of_mem_takeWhile (List.mem_reverse.mp h5)))
  · rw [if_neg h2]; exact h

lemma notNl_of_mem_takeWhile {l : List Char} {c : Char}
    (h : c ∈ l.takeWhile notNl) : c ≠ '\n' := by
  have h1 : notNl c = true := List.mem_takeWhile_imp h
  rw [notNl] at h1
  exact fun he => by rw [he] at h1; simp at h1

lemma collapseBlock_shape (pre post : List Char)
    (hpre : ('\n' : Char) ∉ pre) (hpost : ('\n' : Char) ∉ post) :
    collapseBlock (pre ++ '\n' :: '\n' :: post) = pre ++ '\n' :: '\n' :: post := by
  have hcount : (pre ++ '\n' :: '\n' :: post).count '\n' = 2 := by
    rw [List.count_append, List.count_cons_self, List.count_cons_self,
      List.count_eq_zero.mpr hpre, List.count_eq_zero.mpr hpost]
  have hsatpre : ∀ c ∈ pre, notNl c = true := fun c hc => by
    rw [notNl, bne_iff_ne]
    exact fun he => hpre (he ▸ hc)
  have hsatpost : ∀ c ∈ post.reverse, notNl c = true := fun c hc => by
    rw [notNl, bne_iff_ne]
    exact fun he => hpost (he ▸ List.mem_reverse.mp hc)
  have hnl : notNl '\n' = false := rfl
  rw [collapseBlock, hcount, if_pos (le_refl 2)]
  rw [takeWhile_append_stop _ hsatpre hnl]
  have hrev : (pre ++ '\n' :: '\n' :: post).reverse
      = post.reverse ++ '\n' :: '\n' :: pre.reverse := by
    rw [List.reverse_append, List.reverse_cons, List.reverse_cons, List.append_assoc,
      List.append_assoc]
    rfl
  rw [hrev, takeWhile_append_stop _ hsatpost hnl, List.reverse_reverse]

lemma collapseBlock_idem (w : List Char) :
    collapseBlock (collapseBlock w) = collapseBlock w := by
  by_cases h2 : 2 ≤ w.count '\n'
  · have hb : collapseBlock w =
        w.takeWhile notNl ++ '\n' :: '\n' :: (w.reverse.takeWhile notNl).reverse := by
      rw [collapseBlock, if_pos h2]
    have hpre : ('\n' : Char) ∉ w.takeWhile notNl :=
      fun hm => notNl_of_mem_takeWhile hm rfl
    have hpost : ('\n' : Char) ∉ (w.reverse.takeWhile notNl).reverse :=
      fun hm => notNl_of_mem_takeWhile (List.mem_reverse.mp hm) rfl
    rw [hb]
    exact collapseBlock_shape _ _ hpre hpost
  · have hb : collapseBlock w = w := by rw [collapseBlock, if_neg h2]
    rw [hb]
    exact hb

lemma collapse_idem_aux : ∀ n, ∀ l : List Char, l.length ≤ n →
    collapse (collapse l) = collapse l := by
  intro n
  induction n with
  | zero =>
    intro l hl
    rw [List.eq_nil_of_length_eq_zero (Nat.le_zero.mp hl)]
    rfl
  | succ n ih =>
    intro l hl
    cases hdw : l.dropWhile isPySpace with
    | nil =>
      have hws : allWs l := List.dropWhile_eq_nil_iff.mp hdw
      rw [collapse_all_ws hws, collapse_all_ws (collapseBlock_allWs hws),
        collapseBlock_idem]
    | cons c u' =>
      have hc : isPySpace c = false := dropWhileHeadFalse hdw
      have hsplit : l.takeWhile isPySpace ++ c :: u' = l := by
        rw [← hdw, List.takeWhile_append_dropWhile]
      have hlen : u'.length ≤ n := by
        have h1 : (l.takeWhile isPySpace ++ c :: u').length = l.length :=
          congrArg List.length hsplit
        rw [List.length_append, List.length_cons] at h1
        omega
      have hw : allWs (l.takeWhile isPySpace) := takeWhile_allWs l
      calc collapse (collapse l)
          = collapse (collapse (l.takeWhile isPySpace ++ c :: u')) := by rw [hsplit]
        _ = collapse (collapseBlock (l.takeWhile isPySpace) ++ c :: collapse u') := by
            rw [collapse_decomp u' hw hc]
        _ = collapseBlock (collapseBlock (l.takeWhile isPySpace)) ++
              c :: collapse (collapse u') :=
            collapse_decomp (collapse u') (collapseBlock_allWs hw) hc
        _ = collapseBlock (l.takeWhile isPySpace) ++ c :: collapse u' := by
            rw [collapseBlock_idem, ih u' hlen]
        _ = collapse (l.takeWhile isPySpace ++ c :: u') :=
            (collapse_decomp u' hw hc).symm
        _ = collapse l := by rw [hsplit]

lemma collapse_idem (l : List Char) : collapse (collapse l) = collapse l :=
  collapse_idem_aux l.length l le_rfl

lemma dropWhile_length_le {p : Char → Bool} : ∀ l : List Char,
    (l.dropWhile p).length ≤ l.length := by
  intro l
  induction l with
  | nil => exact Nat.le_refl 0
  | cons x xs ih =>
    rw [List.dropWhile_cons]
    by_cases hx : p x = true
    · rw [if_pos hx]
      rw [List.length_cons]
      omega
    · rw [if_neg hx]

lemma allWs_wsDropLead_nil {l : List Char} (h : allWs l) : wsDropLead l = [] :=
  dropWhile_nil_of_all h

lemma allWs_wsDropTrail_nil {l : List Char} (h : allWs l) : wsDropTrail l = [] := by
  rw [wsDropTrail, dropWhile_nil_of_all (fun c hc => h c (List.mem_reverse.mp hc))]
  rfl

lemma collapse_wsDropLead (l : List Char) :
    collapse (wsDropLead l) = wsDropLead (collapse l) := by
  cases hdw : l.dropWhile isPySpace with
  | nil =>
    have hws : allWs l := List.dropWhile_eq_nil_iff.mp hdw
    rw [wsDropLead, hdw, collapse_nil, collapse_all_ws hws,
      allWs_wsDropLead_nil (collapseBlock_allWs hws)]
  | cons c u' =>
    have hc : isPySpace c = false := dropWhileHeadFalse hdw
    have hsplit : l.takeWhile isPySpace ++ c :: u' = l := by
      rw [← hdw, List.takeWhile_append_dropWhile]
    have hw : allWs (l.takeWhile isPySpace) := takeWhile_allWs l
    have hdec : collapse l = collapseBlock (l.takeWhile isPySpace) ++ c :: collapse u' := by
      conv_lhs => rw [← hsplit]
      exact collapse_decomp u' hw hc
    rw [wsDropLead, hdw, hdec, wsDropLead,
      dropWhile_append_of_all _ (collapseBlock_allWs hw),
      List.dropWhile_cons, if_neg (by simp [hc])]
    have h0 : collapse ([] ++ c :: u') = collapseBlock [] ++ c :: collapse u' :=
      collapse_decomp u' (fun c hc => absurd hc (List.not_mem_nil c)) hc
    rw [List.nil_append, collapseBlock_nil, List.nil_append] at h0
    exact h0

lemma wsDropTrail_append_cons {c : Char} (w u : List Char) (hc : isPySpace c = false) :
    wsDropTrail (w ++ c :: u) = w ++ c :: wsDropTrail u := by
  rw [wsDropTrail, List.reverse_append, List.reverse_cons, List.append_assoc,
    List.singleton_append, dropWhile_append_stop _ hc, List.reverse_append,
    List.reverse_cons, List.reverse_reverse, List.append_assoc, List.singleton_append]
  rfl

lemma collapse_wsDropTrail_aux : ∀ n, ∀ l : List Char, l.length ≤ n →
    collapse (wsDropTrail l) = wsDropTrail (collapse l) := by
  intro n
  induction n with
  | zero =>
    intro l hl
    rw [List.eq_nil_of_length_eq_zero (Nat.le_zero.mp hl)]
    rfl
  | succ n ih =>
    intro l hl
    cases hdw : l.dropWhile isPySpace with
    | nil =>
      have hws : allWs l := List.dropWhile_eq_nil_iff.mp hdw
      rw [allWs_wsDropTrail_nil hws, collapse_nil, collapse_all_ws hws,
        allWs_wsDropTrail_nil (collapseBlock_allWs hws)]
    | cons c u' =>
      have hc : isPySpace c = false := dropWhileHeadFalse hdw
      have hsplit : l.takeWhile isPySpace ++ c :: u' = l := by
        rw [← hdw, List.takeWhile_append_dropWhile]
      have hlen : u'.length ≤ n := by
        have h1 : (l.takeWhile isPySpace ++ c :: u').length = l.length :=
          congrArg List.length hsplit
        rw [List.length_append, List.length_cons] at h1
        omega
      have hw : allWs (l.takeWhile isPySpace) := takeWhile_allWs l
      calc collapse (wsDropTrail l)
          = collapse (wsDropTrail (l.takeWhile isPySpace ++ c :: u')) := by rw [hsplit]
        _ = collapse (l.takeWhile isPySpace ++ c :: wsDropTrail u') := by
            rw [wsDropTrail_append_cons _ _ hc]
        _ = collapseBlock (l.takeWhile isPySpace) ++ c :: collapse (wsDropTrail u') :=
            collapse_decomp _ hw hc
        _ = collapseBlock (l.takeWhile isPySpace) ++ c :: wsDropTrail (collapse u') := by
            rw [ih u' hlen]
        _ = wsDropTrail (collapseBlock (l.takeWhile isPySpace) ++ c :: collapse u') :=
            (wsDropTrail_append_cons _ _ hc).symm
        _ = wsDropTrail (collapse (l.takeWhile isPySpace ++ c :: u')) := by
            rw [collapse_decomp _ hw hc]
        _ = wsDropTrail (collapse l) := by rw [hsplit]

lemma collapse_wsDropTrail (l : List Char) :
    collapse (wsDropTrail l) = wsDropTrail (collapse l) :=
  collapse_wsDropTrail_aux l.length l le_rfl

lemma wsDropLead_idem (l : List Char) : wsDropLead (wsDropLead l) = wsDropLead l :=
  dropWhile_idem l

lemma wsDropTrail_idem (l : List Char) : wsDropTrail (wsDropTrail l) = wsDropTrail l := by
  rw [wsDropTrail, wsDropTrail, List.reverse_reverse, dropWhile_idem]

lemma wsDropLead_wsDropTrail_fix {l : List Char} (h : wsDropLead l = l) :
    wsDropLead (wsDropTrail l) = wsDropTrail l := by
  cases l with
  | nil => rfl
  | cons c u =>
    have hc : isPySpace c = false := by
      by_cases hc : isPySpace c = true
      · exfalso
        rw [wsDropLead, List.dropWhile_cons, if_pos hc] at h
        have hlen : (u.dropWhile isPySpace).length ≤ u.length :=
          dropWhile_length_le u
        have : (c :: u).length ≤ u.length := h ▸ hlen
        rw [List.length_cons] at this
        omega
      · exact Bool.not_eq_true _ ▸ Bool.of_not_eq_true hc
    have h1 : wsDropTrail ([] ++ c :: u) = [] ++ c :: wsDropTrail u :=
      wsDropTrail_append_cons [] u hc
    rw [List.nil_append, List.nil_append] at h1
    rw [h1, wsDropLead, List.dropWhile_cons, if_neg (by simp [hc])]

lemma stripL_idem (l : List Char) : stripL (stripL l) = stripL l := by
  rw [stripL, stripL, wsDropLead_wsDropTrail_fix (wsDropLead_idem l), wsDropTrail_idem]

lemma stripL_collapse_fix (z : List Char) :
    stripL (collapse (stripL (collapse z))) = stripL (collapse z) := by
  have hc : collapse (stripL (collapse z)) = stripL (collapse z) := by
    rw [stripL, collapse_wsDropTrail, collapse_wsDropLead, collapse_idem]
  rw [hc, stripL_idem]

/-! ### Identity of the Question-line and References removals on clean text -/

lemma splitNl_ne_nil (l : List Char) : splitNl l ≠ [] := by
  cases l with
  | nil => simp [splitNl]
  | cons c rest =>
    rw [splitNl]
    by_cases hc : c = '\n'
    · rw [if_pos hc]; simp
    · rw [if_neg hc]
      cases splitNl rest with
      | nil => simp
      | cons p ps => simp

lemma splitNl_head_takeWhile (l : List Char) :
    ∃ ps, splitNl l = l.takeWhile notNl :: ps := by
  induction l with
  | nil => exact ⟨[], rfl⟩
  | cons c rest ih =>
    by_cases hc : c = '\n'
    · refine ⟨splitNl rest, ?_⟩
      rw [splitNl, if_pos hc, hc, List.takeWhile_cons]
      rfl
    · rcases ih with ⟨ps, hps⟩
      refine ⟨ps, ?_⟩
      rw [splitNl, if_neg hc, hps, List.takeWhile_cons, if_pos (by simp [notNl, hc])]

lemma qpat_not_nil_sw : startsWithL qpat [] = false := rfl

lemma piece_startsQ_containsSeg :
    ∀ {l : List Char} {p : List Char}, p ∈ splitNl l →
      startsWithL qpat p = true → containsSeg qpat l = true := by
  intro l
  induction l with
  | nil =>
    intro p hp hq
    rw [show splitNl [] = [[]] from rfl] at hp
    rcases List.mem_singleton.mp hp with h
    rw [h, qpat_not_nil_sw] at hq
    cases hq
  | cons c rest ih =>
    intro p hp hq
    by_cases hc : c = '\n'
    · rw [splitNl, if_pos hc] at hp
      rcases List.mem_cons.mp hp with h1 | h1
      · rw [h1, qpat_not_nil_sw] at hq; cases hq
      · rw [containsSeg, ih h1 hq, Bool.or_true]
    · rcases splitNl_head_takeWhile rest with ⟨ps, hps⟩
      rw [splitNl, if_neg hc, hps] at hp
      rcases List.mem_cons.mp hp with h1 | h1
      · have hpref : startsWithL qpat (c :: rest) = true := by
          have h2 : c :: rest = (c :: rest.takeWhile notNl) ++ rest.dropWhile notNl := by
            rw [List.cons_append, List.takeWhile_append_dropWhile]
          rw [h2]
          exact startsWithL_weaken _ (h1 ▸ hq)
        rw [containsSeg, hpref, Bool.true_or]
      · have h2 : p ∈ splitNl rest := by
          rw [hps]
          exact List.mem_cons_of_mem _ h1
        rw [containsSeg, ih h2 hq, Bool.or_true]

lemma dropQLines_id : ∀ {ps : List (List Char)},
    (∀ p ∈ ps, startsWithL qpat p = false) → dropQLines ps = ps := by
  intro ps
  induction ps with
  | nil => intro _; rfl
  | cons l ls ih =>
    intro h
    cases ls with
    | nil => rfl
    | cons l2 ls2 =>
      have hstep : dropQLines (l :: l2 :: ls2) =
          if startsWithL qpat l then dropQLines (l2 :: ls2)
          else l :: dropQLines (l2 :: ls2) := rfl
      rw [hstep, if_neg (by simp [h l (List.mem_cons_self _ _)])]
      rw [ih fun p hp => h p (List.mem_cons_of_mem _ hp)]

lemma joinNl_splitNl : ∀ l : List Char, joinNl (splitNl l) = l := by
  intro l
  induction l with
  | nil => rfl
  | cons c rest ih =>
    by_cases hc : c = '\n'
    · rw [splitNl, if_pos hc]
      cases hps : splitNl rest with
      | nil => exact absurd hps (splitNl_ne_nil rest)
      | cons p ps =>
        have hstep : joinNl ([] :: p :: ps) = [] ++ '\n' :: joinNl (p :: ps) := rfl
        rw [hstep, List.nil_append, hc, ← hps, ih]
    · rw [splitNl, if_neg hc]
      cases hps : splitNl rest with
      | nil => exact absurd hps (splitNl_ne_nil rest)
      | cons p ps =>
        rw [hps] at ih
        cases ps with
        | nil =>
          have hstep : joinNl [c :: p] = c :: p := rfl
          have hstep2 : joinNl [p] = p := rfl
          rw [hstep2] at ih
          rw [hstep, ih]
        | cons p2 ps2 =>
          have hstep : joinNl ((c :: p) :: p2 :: ps2)
              = (c :: p) ++ '\n' :: joinNl (p2 :: ps2) := rfl
          have hstep2 : joinNl (p :: p2 :: ps2) = p ++ '\n' :: joinNl (p2 :: ps2) := rfl
          rw [hstep2] at ih
          rw [hstep, List.cons_append, ih]

lemma removeQ_id {l : List Char} (h : containsSeg qpat l = false) : removeQ l = l := by
  rw [removeQ, dropQLines_id, joinNl_splitNl]
  intro p hp
  by_cases hq : startsWithL qpat p = true
  · rw [piece_startsQ_containsSeg hp hq] at h; cases h
  · exact Bool.not_eq_true _ ▸ Bool.of_not_eq_true hq

lemma truncAtRefs_id : ∀ {l : List Char}, containsSeg refsPat l = false →
    truncAtRefs l = l := by
  intro l
  induction l with
  | nil => intro _; rfl
  | cons c rest ih =>
    intro h
    rw [containsSeg, Bool.or_eq_false_iff] at h
    rw [truncAtRefs, if_neg (by simp [h.1]), ih h.2]

/-! ### The sanitizer fixed-point lemma -/

lemma cleanL_nil : cleanL [] = [] := rfl

lemma cleanL_fix (d : List Char)
    (h1 : containsSeg qpat (cleanL d) = false)
    (h2 : containsSeg refsPat (cleanL d) = false) :
    cleanL (cleanL d) = cleanL d := by
  by_cases hd : d = []
  · rw [hd]; rfl
  · have hy : cleanL d = stripL (collapse (truncAtRefs (removeQ d))) := by
      rw [cleanL, if_neg hd]
    by_cases hynil : cleanL d = []
    · rw [hynil]; rfl
    · rw [cleanL, if_neg hynil, removeQ_id h1, truncAtRefs_id h2, hy,
        stripL_collapse_fix]

/-! ### Helper lemmas for the handler and cache theorems -/

lemma needsRebuild_false_iff (st : Option (Finset String)) (c : Finset String) :
    needsRebuild st c = false ↔ st = some c := by
  cases st with
  | none => simp [needsRebuild]
  | some s => simp [needsRebuild, indexedFiles]

lemma needsRebuild_true_iff (st : Option (Finset String)) (c : Finset String) :
    needsRebuild st c = true ↔ st ≠ some c := by
  cases h : needsRebuild st c
  · simp [(needsRebuild_false_iff st c).mp h]
  · simp only [true_iff]
    intro he
    rw [(needsRebuild_false_iff st c).mpr he] at h
    cases h

lemma paperqa_query_run (files : List String) (st : Option (Finset String)) (raw : String)
    (a : String) (as : List String) (hp : files.filter endsPdf = a :: as) :
    paperqa_query (.present files) st false (.answers raw) =
      if needsRebuild st ((a :: as).toFinset) then
        ⟨paperqaAnswerPolicy raw, true, (a :: as).length, 1, some ((a :: as).toFinset)⟩
      else ⟨paperqaAnswerPolicy raw, false, 0, 1, st⟩ := by
  by_cases hreb : needsRebuild st ((a :: as).toFinset) = true
  · have hreb' : needsRebuild st (insert a as.toFinset) = true := by
      rwa [List.toFinset_cons] at hreb
    simp [paperqa_query, paperqaBody, hp, hreb']
  · have hreb' : needsRebuild st (insert a as.toFinset) = false := by
      rw [← List.toFinset_cons]
      exact Bool.of_not_eq_true hreb
    simp [paperqa_query, paperqaBody, hp, hreb']

lemma backendAnswerPolicy_ne_empty (raw : String) : backendAnswerPolicy raw ≠ "" := by
  simp only [backendAnswerPolicy]
  split
  · decide
  · next hcond => exact fun h => hcond (Or.inl h)

lemma paperqaAnswerPolicy_ne_empty (raw : String) : paperqaAnswerPolicy raw ≠ "" := by
  simp only [paperqaAnswerPolicy]
  split
  · decide
  · next hcond => exact fun h => hcond (Or.inl h)

lemma backendErrorPrefix_ne_key (msg : String) :
    backendErrorPrefix ++ msg ≠ apiKeyMissingMsg := by
  intro h
  have h2 : (backendErrorPrefix ++ msg).data = apiKeyMissingMsg.data :=
    congrArg String.data h
  rw [String.data_append] at h2
  have h3 : backendErrorPrefix.data
      = 'A' :: 'n' :: " error occurred while processing your question: ".data := rfl
  have h4 : apiKeyMissingMsg.data
      = 'A' :: 'P' :: "I key is not configured on the server.".data := rfl
  rw [h3, h4, List.cons_append, List.cons_append] at h2
  injection h2 with _ h5
  injection h5 with h6 _
  exact absurd h6 (by decide)

lemma backendErrorPrefix_ne_emptyq (msg : String) :
    backendErrorPrefix ++ msg ≠ emptyQuestionMsg := by
  intro h
  have h2 : (backendErrorPrefix ++ msg).data = emptyQuestionMsg.data :=
    congrArg String.data h
  rw [String.data_append] at h2
  have h3 : backendErrorPrefix.data
      = 'A' :: "n error occurred while processing your question: ".data := rfl
  have h4 : emptyQuestionMsg.data = 'Q' :: "uestion cannot be empty.".data := rfl
  rw [h3, h4, List.cons_append] at h2
  injection h2 with h5 _
  exact absurd h5 (by decide)

/-! ### The claims -/

/-- Claim C1, counterexample.  The claim says every chat handler substitutes
the fallback whenever the sanitized answer equals, case-insensitively, one of
`none`, the empty string, or `i cannot answer.`.  The backend handler checks
only `["none", ""]`: on a raw answer `I cannot answer.` — whose sanitized
form lowercases exactly to the claimed token `i cannot answer.` — it returns
the sanitized text unchanged instead of the fallback sentence. -/
theorem C1_counterexample :
    pyLower (clean_answer_text "I cannot answer.") = "i cannot answer." ∧
    Backend.chat_with_papers (some "key") "q" (.present ["a.pdf"])
      (.answers "I cannot answer.") = .ok "I cannot answer." ∧
    "I cannot answer." ≠ backendFallback := by
  refine ⟨by decide, ?_, by decide⟩
  decide

/-- Claim C1, amended.  The backend handler's answers are always non-empty
and its fallback fires exactly on the two-token list `["none", ""]` (plus
emptiness); the three-token list including `i cannot answer.` is applied
inside the agent variant's `paperqa_query` tool, whose results are likewise
never empty; the agent variant's handler itself returns the model's final
message content unchanged. -/
theorem C1_main :
    (∀ raw, backendAnswerPolicy raw ≠ "") ∧
    (∀ raw, paperqaAnswerPolicy raw ≠ "") ∧
    (∀ raw, (clean_answer_text raw = "" ∨
        pyLower (clean_answer_text raw) ∈ ["none", ""]) →
      backendAnswerPolicy raw = backendFallback) ∧
    (∀ raw, (clean_answer_text raw = "" ∨
        pyLower (clean_answer_text raw) ∈ ["none", "", "i cannot answer."]) →
      paperqaAnswerPolicy raw = paperqaToolFallback) ∧
    (∀ key q ans used, key.getD "" ≠ "" → q ≠ "" →
      Api.chat_with_papers key q (.ok ans used)
        = .ok ans (if used then "rag_api" else "conversational_api")) := by
  refine ⟨backendAnswerPolicy_ne_empty, paperqaAnswerPolicy_ne_empty, ?_, ?_, ?_⟩
  · intro raw h
    simp only [backendAnswerPolicy]
    rw [if_pos h]
  · intro raw h
    simp only [paperqaAnswerPolicy]
    rw [if_pos h]
  · intro key q ans used hk hq
    rw [Api.chat_with_papers.eq_def, if_neg hk, if_neg hq]

/-- Claim C1, witness: the fallbacks do fire on the tokens each variant
checks, and an empty agent answer passes through the agent handler. -/
theorem C1_witness :
    backendAnswerPolicy "None" = backendFallback ∧
    paperqaAnswerPolicy "I cannot answer." = paperqaToolFallback ∧
    Api.chat_with_papers (some "key") "hi" (.ok "" false) = .ok "" "conversational_api" :=
  ⟨C1_main.2.2.1 "None" (by decide),
   C1_main.2.2.2.1 "I cannot answer." (by decide),
   C1_main.2.2.2.2 (some "key") "hi" "" false (by decide) (by decide)⟩

/-- Claim C2: on a query with a non-empty PDF list, the index is rebuilt
exactly when the cached state differs from the current file set (as a set);
the state afterwards always records the current set, and an immediately
repeated call with the unchanged file set neither rebuilds nor issues any
add-document call. -/
theorem C2_main (files : List String) (st : Option (Finset String)) (raw : String)
    (hne : files.filter endsPdf ≠ []) :
    ((paperqa_query (.present files) st false (.answers raw)).rebuilt = true
      ↔ st ≠ some (files.filter endsPdf).toFinset) ∧
    (paperqa_query (.present files) st false (.answers raw)).newState
      = some (files.filter endsPdf).toFinset ∧
    (paperqa_query (.present files)
      (paperqa_query (.present files) st false (.answers raw)).newState
      false (.answers raw)).rebuilt = false ∧
    (paperqa_query (.present files)
      (paperqa_query (.present files) st false (.answers raw)).newState
      false (.answers raw)).addCalls = 0 := by
  cases hp : files.filter endsPdf with
  | nil => exact absurd hp hne
  | cons a as =>
    have hnfix : ¬ needsRebuild (some ((a :: as).toFinset)) ((a :: as).toFinset) = true := by
      rw [(needsRebuild_false_iff _ _).mpr rfl]
      simp
    have hrun := paperqa_query_run files st raw a as hp
    have hrun2 := paperqa_query_run files (some ((a :: as).toFinset)) raw a as hp
    rw [if_neg hnfix] at hrun2
    by_cases hreb : needsRebuild st ((a :: as).toFinset) = true
    · rw [hrun, if_pos hreb]
      refine ⟨⟨fun _ => (needsRebuild_true_iff st _).mp hreb, fun _ => rfl⟩, rfl, ?_, ?_⟩
      · show (paperqa_query (.present files) (some ((a :: as).toFinset))
          false (.answers raw)).rebuilt = false
        rw [hrun2]
      · show (paperqa_query (.present files) (some ((a :: as).toFinset))
          false (.answers raw)).addCalls = 0
        rw [hrun2]
    · have hreb2 : needsRebuild st ((a :: as).toFinset) = false := Bool.of_not_eq_true hreb
      have hst : st = some ((a :: as).toFinset) := (needsRebuild_false_iff st _).mp hreb2
      rw [hrun, if_neg hreb]
      refine ⟨by simp [hst], hst, ?_, ?_⟩
      · show (paperqa_query (.present files) st false (.answers raw)).rebuilt = false
        rw [hst, hrun2]
      · show (paperqa_query (.present files) st false (.answers raw)).addCalls = 0
        rw [hst, hrun2]

/-- Claim C2, witness: a first query on a fresh cache rebuilds; the repeated
query with the unchanged file set does not. -/
theorem C2_witness :
    (paperqa_query (.present ["a.pdf"]) none false (.answers "hi")).rebuilt = true ∧
    (paperqa_query (.present ["a.pdf"])
      (paperqa_query (.present ["a.pdf"]) none false (.answers "hi")).newState
      false (.answers "hi")).rebuilt = false ∧
    (paperqa_query (.present ["a.pdf"])
      (paperqa_query (.present ["a.pdf"]) none false (.answers "hi")).newState
      false (.answers "hi")).addCalls = 0 :=
  ⟨(C2_main ["a.pdf"] none "hi" (by decide)).1.mpr (by simp),
   (C2_main ["a.pdf"] none "hi" (by decide)).2.2.1,
   (C2_main ["a.pdf"] none "hi" (by decide)).2.2.2⟩

/-- Claim C3, counterexample: the sanitizer is not idempotent.  On
`A\n \nReferences B` the blank-line collapse manufactures the `\n\nReferences`
pattern, which only the second application strips. -/
theorem C3_counterexample :
    clean_answer_text (clean_answer_text "A\n \nReferences B")
      ≠ clean_answer_text "A\n \nReferences B" := by decide

/-- Claim C3, amended: the sanitizer is idempotent on every input whose
cleaned form contains neither the `Question:` pattern nor the
`\n\nReferences` pattern; in general a second application can strip further
material that the first application's whitespace normalisation exposed. -/
theorem C3_main (x : String)
    (h1 : containsSeg qpat (clean_answer_text x).data = false)
    (h2 : containsSeg refsPat (clean_answer_text x).data = false) :
    clean_answer_text (clean_answer_text x) = clean_answer_text x :=
  congrArg String.mk (cleanL_fix x.data h1 h2)

/-- Claim C3, witness: a typical cleaned answer is a fixed point. -/
theorem C3_witness :
    containsSeg qpat (clean_answer_text "a\n\n\n\nb").data = false ∧
    containsSeg refsPat (clean_answer_text "a\n\n\n\nb").data = false ∧
    clean_answer_text (clean_answer_text "a\n\n\n\nb") = clean_answer_text "a\n\n\n\nb" :=
  ⟨by decide, by decide, C3_main "a\n\n\n\nb" (by decide) (by decide)⟩

/-- Claim C4: the sanitizer strips a leading `Question: ...` line, and on the
claimed input yields exactly `Answer text`; more generally a leading
`Question: foo?` line followed by a newline is erased before the rest is
processed. -/
theorem C4_main :
    clean_answer_text "Question: foo?\nAnswer text" = "Answer text" ∧
    ∀ t : List Char, cleanL ("Question: foo?\n".data ++ t) = cleanL t := by
  refine ⟨by decide, ?_⟩
  intro t
  have hsplit : splitNl ("Question: foo?\n".data ++ t)
      = "Question: foo?".data :: splitNl t := rfl
  have hrq : removeQ ("Question: foo?\n".data ++ t) = removeQ t := by
    rw [removeQ, hsplit]
    cases hps : splitNl t with
    | nil => exact absurd hps (splitNl_ne_nil t)
    | cons p ps =>
      have hstep : dropQLines ("Question: foo?".data :: p :: ps)
          = if startsWithL qpat "Question: foo?".data then dropQLines (p :: ps)
            else "Question: foo?".data :: dropQLines (p :: ps) := rfl
      rw [hstep, if_pos (by decide), removeQ, hps]
  have hne : "Question: foo?\n".data ++ t ≠ [] := by
    rw [show "Question: foo?\n".data ++ t
      = 'Q' :: ("uestion: foo?\n".data ++ t) from rfl]
    exact List.cons_ne_nil _ _
  rw [cleanL, if_neg hne, hrq]
  by_cases ht : t = []
  · subst ht
    rfl
  · rw [cleanL, if_neg ht]

/-- Claim C5: the sanitizer strips the trailing References section: on the
claimed input it yields exactly `Body text`, and the truncation removes
everything from the first `\n\nReferences` on, whatever follows it. -/
theorem C5_main :
    clean_answer_text "Body text\n\nReferences\n1. Some citation" = "Body text" ∧
    ∀ t : List Char,
      truncAtRefs ("Body text\n\nReferences".data ++ t) = "Body text".data := by
  refine ⟨by decide, ?_⟩
  intro t
  rfl

/-- Claim C6: a missing document directory or a directory with no `.pdf`
entries short-circuits both variants: the tool returns its fixed explanatory
string with zero add-document and zero query calls and an unchanged cache,
and the backend handler answers with its fixed explanatory string as a
normal success rather than an HTTP error. -/
theorem C6_main :
    (∀ st addRaises qev, paperqa_query .missing st addRaises qev
      = ⟨dirMissingMsg, false, 0, 0, st⟩) ∧
    (∀ files st addRaises qev, files.filter endsPdf = [] →
      paperqa_query (.present files) st addRaises qev
        = ⟨noPdfMsg, false, 0, 0, st⟩) ∧
    (∀ key q qev, key.getD "" ≠ "" → q ≠ "" →
      Backend.chat_with_papers key q .missing qev = .ok backendDirMissingMsg) ∧
    (∀ key q files qev, key.getD "" ≠ "" → q ≠ "" → files.filter endsPdf = [] →
      Backend.chat_with_papers key q (.present files) qev = .ok backendNoPdfMsg) := by
  refine ⟨fun st addRaises qev => rfl, ?_, ?_, ?_⟩
  · intro files st addRaises qev h
    simp [paperqa_query, paperqaBody, h]
  · intro key q qev hk hq
    rw [Backend.chat_with_papers.eq_def, if_neg hk, if_neg hq]
  · intro key q files qev hk hq h
    rw [Backend.chat_with_papers.eq_def, if_neg hk, if_neg hq]
    simp [h]

/-- Claim C6, witness: concrete missing-directory and no-PDF runs. -/
theorem C6_witness :
    paperqa_query .missing none false (.answers "x")
      = ⟨dirMissingMsg, false, 0, 0, none⟩ ∧
    Backend.chat_with_papers (some "k") "q" .missing (.answers "x")
      = .ok backendDirMissingMsg ∧
    Backend.chat_with_papers (some "k") "q" (.present ["notes.txt"]) (.answers "x")
      = .ok backendNoPdfMsg :=
  ⟨C6_main.1 none false (.answers "x"),
   C6_main.2.2.1 (some "k") "q" (.answers "x") (by decide) (by decide),
   C6_main.2.2.2 (some "k") "q" ["notes.txt"] (.answers "x") (by decide) (by decide)
     (by decide)⟩

/-- Claim C7: in both variants a Python-falsy credential yields the fixed
500 error whatever the question and whatever the downstream behaviour; with
a credential, an empty question yields the fixed 400 error; otherwise
neither validation error is produced. -/
theorem C7_main :
    (∀ key q run, key.getD "" = "" →
      Api.chat_with_papers key q run = .httpError 500 apiKeyMissingMsg) ∧
    (∀ key run, key.getD "" ≠ "" →
      Api.chat_with_papers key "" run = .httpError 400 emptyQuestionMsg) ∧
    (∀ key q run, key.getD "" ≠ "" → q ≠ "" →
      Api.chat_with_papers key q run ≠ .httpError 500 apiKeyMissingMsg ∧
      Api.chat_with_papers key q run ≠ .httpError 400 emptyQuestionMsg) ∧
    (∀ key q dir qev, key.getD "" = "" →
      Backend.chat_with_papers key q dir qev = .httpError 500 apiKeyMissingMsg) ∧
    (∀ key dir qev, key.getD "" ≠ "" →
      Backend.chat_with_papers key "" dir qev = .httpError 400 emptyQuestionMsg) ∧
    (∀ key q dir qev, key.getD "" ≠ "" → q ≠ "" →
      Backend.chat_with_papers key q dir qev ≠ .httpError 500 apiKeyMissingMsg ∧
      Backend.chat_with_papers key q dir qev ≠ .httpError 400 emptyQuestionMsg) := by
  refine ⟨?_, ?_, ?_, ?_, ?_, ?_⟩
  · intro key q run hk
    rw [Api.chat_with_papers.eq_def, if_pos hk]
  · intro key run hk
    rw [Api.chat_with_papers.eq_def, if_neg hk, if_pos rfl]
  · intro key q run hk hq
    rw [Api.chat_with_papers.eq_def, if_neg hk, if_neg hq]
    cases run with
    | raises => exact ⟨by simp [apiInternalErrorMsg, apiKeyMissingMsg], by simp⟩
    | ok ans used => exact ⟨by simp, by simp⟩
  · intro key q dir qev hk
    rw [Backend.chat_with_papers.eq_def, if_pos hk]
  · intro key dir qev hk
    rw [Backend.chat_with_papers.eq_def, if_neg hk, if_pos rfl]
  · intro key q dir qev hk hq
    rw [Backend.chat_with_papers.eq_def, if_neg hk, if_neg hq]
    cases dir with
    | missing => exact ⟨by simp, by simp⟩
    | present files =>
      by_cases hp : (files.filter endsPdf).isEmpty = true
      · simp only [hp, if_true]
        exact ⟨by simp, by simp⟩
      · simp only [Bool.of_not_eq_true hp, if_false]
        cases qev with
        | answers raw => exact ⟨by simp, by simp⟩
        | raises msg =>
          exact ⟨by simp [backendErrorPrefix_ne_key msg],
            by simp [backendErrorPrefix_ne_emptyq msg]⟩

/-- Claim C7, witness: concrete validation outcomes for both variants. -/
theorem C7_witness :
    Api.chat_with_papers none "anything" (.ok "a" false)
      = .httpError 500 apiKeyMissingMsg ∧
    Api.chat_with_papers (some "k") "" (.ok "a" false)
      = .httpError 400 emptyQuestionMsg ∧
    Backend.chat_with_papers (some "") "q" .missing (.answers "x")
      = .httpError 500 apiKeyMissingMsg :=
  ⟨C7_main.1 none "anything" (.ok "a" false) (by decide),
   C7_main.2.1 (some "k") (.ok "a" false) (by decide),
   C7_main.2.2.2.1 (some "") "q" .missing (.answers "x") (by decide)⟩

/-- Claim C8, counterexample.  The claim says every add-document and query
call retries once without the optional settings on a type error, in both
variants.  The agent variant never retries: against a library rejecting the
settings parameter, its single-attempt calls surface the TypeError. -/
theorem C8_counterexample :
    Api.addDocument false = (.exc true, 1) ∧
    Api.queryDocs false "ans" = (.exc true, 1) ∧
    Backend.addDocument false = (.ok (), 2) :=
  ⟨rfl, rfl, rfl⟩

/-- Claim C8, amended: the two-tier fallback exists only in the backend
variant, where it is invisible to the caller (the call always succeeds, in
one attempt when settings are accepted, two otherwise); the agent variant
passes settings unconditionally with no retry, and an incompatibility there
surfaces through the tool's catch-all as the fixed error string after a
single add attempt. -/
theorem C8_main :
    (∀ s, Backend.addDocument s = (.ok (), if s then 1 else 2)) ∧
    (∀ s ans, Backend.queryDocs s ans = (.ok ans, if s then 1 else 2)) ∧
    (∀ ans, Api.addDocument false = (.exc true, 1) ∧
      Api.queryDocs false ans = (.exc true, 1)) ∧
    (paperqa_query (.present ["a.pdf"]) none true (.answers "x")).result
      = toolErrorMsg ∧
    (paperqa_query (.present ["a.pdf"]) none true (.answers "x")).addCalls = 1 := by
  refine ⟨fun s => ?_, fun s ans => ?_, fun ans => ⟨rfl, rfl⟩, by decide, by decide⟩
  · cases s <;> rfl
  · cases s <;> rfl

/-- Claim C9, counterexample.  The claim says the log path is derived from
the current date at write time.  The handler's file is fixed at module
import: a write on new year's day of 2026 by a process imported on
2025-12-31 still lands in the 2025/12/31 partition. -/
theorem C9_counterexample :
    (ragLoggerAppend (ragLoggerSetup ⟨2025, 12, 31⟩) ⟨2026, 1, 1⟩ "record").1
      = logPartition ⟨2025, 12, 31⟩ ∧
    (ragLoggerAppend (ragLoggerSetup ⟨2025, 12, 31⟩) ⟨2026, 1, 1⟩ "record").1
      ≠ logPartition ⟨2026, 1, 1⟩ :=
  ⟨rfl, by decide⟩

/-- Claim C9, amended: the target partition file is derived from the date at
module import (when the single FileHandler is created, its year/month
directory made on demand), and every later write goes to that same file
regardless of the date at write time. -/
theorem C9_main :
    ∀ importDate nowDate : LogDate, ∀ line : String,
      (ragLoggerAppend (ragLoggerSetup importDate) nowDate line).1
        = logPartition importDate :=
  fun _ _ _ => rfl

/-- Claim C10: the `paperqa_query` tool never propagates an exception: when
its body raises, the run returns the fixed error string as an ordinary tool
result, and when the body returns normally the run returns that value. -/
theorem C10_main (dir : DirState) (st : Option (Finset String))
    (addRaises : Bool) (qev : QueryEv) :
    (∀ b, (paperqaBody dir st addRaises qev).outcome = .exc b →
      (paperqa_query dir st addRaises qev).result = toolErrorMsg) ∧
    (∀ s, (paperqaBody dir st addRaises qev).outcome = .ok s →
      (paperqa_query dir st addRaises qev).result = s) := by
  constructor
  · intro b h
    simp [paperqa_query, h]
  · intro s h
    simp [paperqa_query, h]

/-- Claim C10, witness: a run whose first add-document call raises comes
back as the fixed error string. -/
theorem C10_witness :
    (paperqa_query (.present ["a.pdf"]) none true (.answers "x")).result
      = toolErrorMsg :=
  (C10_main (.present ["a.pdf"]) none true (.answers "x")).1 false (by decide)

